import Mathlib

/-!
# Verification of the Python-environment staging pipeline

Shallow embedding of `src/WebUI/build/scripts/fetch-python-package-resources.mts`
and `src/WebUI/build/scripts/prepare-python-env.mts`.

Filesystems are modelled as lists of existing paths; the network, the zip
extractor and the 7-Zip subprocess are modelled as explicit environments
(records of response / outcome functions) threaded through the embedded
functions.  Node's `process.exit(1)` is modelled by the `ExitOr` type.
-/

namespace AIPlayground

/-- Modelled from the spec: `getBuildPaths` comes from `build-paths.mts`, which is
not under `src/`.  The spec's DirectoryLayout: repository root, build root,
resources directory, environment-staging directory, the output environment
archive path and the external compressor path (the latter two are fields of
`resourceFiles` in the source's destructuring). -/
structure BuildPaths where
  repoRoot : String
  buildDir : String
  resourcesDir : String
  pythonEnvDir : String
  pythonEnvArchive : String
  sevenZipExe : String
deriving DecidableEq

/-! ## fetch-python-package-resources.mts -/

/-- `interface DownloadResult` (fetch-python-package-resources.mts). -/
structure DownloadResult where
  url : String
  filePath : String
  success : Bool
  error : Option String
deriving DecidableEq, Repr

/-- JavaScript `string.split(sep)` for a one-character separator, over the
character list of the string.  `split` never returns an empty array:
splitting the empty string yields `[""]`. -/
def splitOnChar (sep : Char) : List Char → List (List Char)
  | [] => [[]]
  | c :: cs =>
    match splitOnChar sep cs with
    | [] => [[]]
    | s :: ss => if c = sep then [] :: s :: ss else (c :: s) :: ss

/-- `getBaseFileName(url)`: `url.split('/')` and take the last element
(`urlPathSegments[urlPathSegments.length - 1]`). -/
def getBaseFileName (url : String) : String :=
  let urlPathSegments := splitOnChar '/' url.data
  String.mk (urlPathSegments.getLast?.getD [])

/-- Stated from the spec's words, for comparison with `getBaseFileName`:
"the final path segment of the URL", i.e. the substring after the last `/`
(the longest suffix containing no `/`). -/
def finalPathSegment (url : String) : String :=
  String.mk ((url.data.reverse.takeWhile (fun c => c ≠ '/')).reverse)

/-- The part of a `fetch` response the script inspects: `ok`, `status`,
`statusText` and whether `body` is non-null. -/
structure HttpResponse where
  ok : Bool
  status : Nat
  statusText : String
  hasBody : Bool
deriving DecidableEq

/-- The external world of the fetch script: what `await fetch(url)` yields
(`Except.error` = the promise rejected, carrying the exception message), and
what `await pipeline(response.body, createWriteStream(targetPath))` yields. -/
structure FetchEnv where
  fetchResult : String → Except String HttpResponse
  streamResult : String → String → Except String Unit

/-- Observable state of the fetch script: the set of existing files and the
list of network requests issued so far (each `fetch` call appends its URL). -/
structure FetchState where
  fs : List String
  requests : List String
deriving DecidableEq

/-- The message of the error thrown on a non-success status:
`HTTP ${response.status}: ${response.statusText}`. -/
def httpStatusMessage (r : HttpResponse) : String :=
  "HTTP " ++ toString r.status ++ ": " ++ r.statusText

/-- `downloadFile(url, targetPath)`.  Calls `fetch` (recorded as a request);
throws on a non-ok status or a null body; otherwise `createWriteStream`
creates the target file and `pipeline` streams the body into it.  Every throw
is caught and turned into a `success: false` result carrying the exception
message; the caught path never rethrows. -/
def downloadFile (env : FetchEnv) (url targetPath : String) (st : FetchState) :
    DownloadResult × FetchState :=
  let st1 : FetchState := { st with requests := st.requests ++ [url] }
  match env.fetchResult url with
  | .error e =>
      ({ url := url, filePath := targetPath, success := false, error := some e }, st1)
  | .ok response =>
      if response.ok = false then
        ({ url := url, filePath := targetPath, success := false,
           error := some (httpStatusMessage response) }, st1)
      else if response.hasBody = false then
        ({ url := url, filePath := targetPath, success := false,
           error := some "Response body is null" }, st1)
      else
        let st2 : FetchState := { st1 with fs := targetPath :: st1.fs }
        match env.streamResult url targetPath with
        | .error e =>
            ({ url := url, filePath := targetPath, success := false, error := some e }, st2)
        | .ok _ =>
            ({ url := url, filePath := targetPath, success := true, error := none }, st2)

/-- The destination computed by `downloadFileIfNotPresent`:
`buildPaths.resourcesDir + '/' + getBaseFileName(url)`. -/
def expectedFilePath (bp : BuildPaths) (url : String) : String :=
  bp.resourcesDir ++ "/" ++ getBaseFileName url

/-- `downloadFileIfNotPresent(url)`: if a file already exists at the expected
path (`existsSync`), return a success result immediately (no request);
otherwise delegate to `downloadFile`. -/
def downloadFileIfNotPresent (bp : BuildPaths) (env : FetchEnv) (st : FetchState)
    (url : String) : DownloadResult × FetchState :=
  let fileName := getBaseFileName url
  let dest := bp.resourcesDir ++ "/" ++ fileName
  if dest ∈ st.fs then
    ({ url := url, filePath := dest, success := true, error := none }, st)
  else
    downloadFile env url dest st

/-- Modelled from the spec: "Batch acquisition issues one `acquire` per
configured URL" (the fetch script's driver was removed from `main`; the spec
says the driver may run the acquisitions sequentially).  Sequential fold of
`downloadFileIfNotPresent` over the configured URL list. -/
def fetchAllResources (bp : BuildPaths) (env : FetchEnv) (urls : List String)
    (st : FetchState) : List DownloadResult × FetchState :=
  match urls with
  | [] => ([], st)
  | u :: us =>
      let ru := downloadFileIfNotPresent bp env st u
      let rest := fetchAllResources bp env us ru.2
      (ru.1 :: rest.1, rest.2)

/-- An observable action of the fetch script's entry point. -/
inductive FetchAction where
  | log (msg : String)
  | request (url : String)
  | writeFile (path : String)
deriving DecidableEq

/-- `main()` of fetch-python-package-resources.mts: four `console.log` calls
and nothing else (the body ends with "` except we don't need to do this`"). -/
def fetchMain (bp : BuildPaths) : List FetchAction :=
  [.log "🚀 Starting Python package resources fetch...",
   .log ("📂 Repository Root: " ++ bp.repoRoot),
   .log ("📂 Target directory: " ++ bp.resourcesDir),
   .log " except we don\x27t need to do this"]

/-- Effect of one fetch action on the file system. -/
def applyFetchAction (fs : List String) : FetchAction → List String
  | .log _ => fs
  | .request _ => fs
  | .writeFile p => p :: fs

/-- Effect of a list of fetch actions on the file system. -/
def runFetchActions (fs : List String) (as : List FetchAction) : List String :=
  as.foldl applyFetchAction fs

/-! ## prepare-python-env.mts -/

/-- Node's `process.exit(code)` cut short, or a normal return. -/
inductive ExitOr (α : Type) where
  | exit (code : Nat)
  | ok (a : α)
deriving DecidableEq

/-- A file system with directories and files, each a list of absolute paths. -/
structure StageFS where
  dirs : List String
  files : List String
deriving DecidableEq

/-- `p` lies strictly under directory `dir`. -/
def underDir (dir p : String) : Bool :=
  List.isPrefixOf (dir ++ "/").data p.data

/-- `preparePythonEnvDir()`: if the staging directory exists, `rmSync` it
recursively (removing it, every directory and every file under it); then
`mkdirSync` it. -/
def preparePythonEnvDir (bp : BuildPaths) (fs : StageFS) : StageFS :=
  let dir := bp.pythonEnvDir
  let fs1 :=
    if dir ∈ fs.dirs then
      { dirs := fs.dirs.filter (fun d => !(d = dir || underDir dir d)),
        files := fs.files.filter (fun f => !underDir dir f) }
    else fs
  { dirs := dir :: fs1.dirs, files := fs1.files }

/-- The regular expression `/^python(\d+)\._pth$/` of
`createPythonEnvFromEmbeddableZip`: on a match, returns the captured digit
run.  (`\d+` is greedy; since no digit can begin `._pth`, taking the maximal
digit run is equivalent to the regex with backtracking.) -/
def matchPth (file : String) : Option String :=
  let cs := file.data
  let head6 := cs.take 6
  let rest := cs.drop 6
  let ds := rest.takeWhile Char.isDigit
  let tl := rest.drop ds.length
  if head6 = "python".data ∧ ds ≠ [] ∧ tl = "._pth".data then some (String.mk ds)
  else none

/-- The `for (const file of files)` loop with `break`: the first file of the
directory listing matching the pattern gives `(pythonVersion, pthFileName)`. -/
def findPthFile : List String → Option (String × String)
  | [] => none
  | f :: rest =>
    match matchPth f with
    | some v => some (v, f)
    | none => findPthFile rest

/-- The template literal `pthContent` written by `writeFileSync`. -/
def pthContent (pythonVersion : String) : String :=
  "python" ++ pythonVersion ++
    ".zip\n.\n\n# Uncomment to run site.main() automatically\nimport site\n"

/-- Stated from the spec's words, for comparison with `pthContent`: exactly
five newline-separated (newline-terminated) lines. -/
def fiveLines (l1 l2 l3 l4 l5 : String) : String :=
  l1 ++ "\n" ++ l2 ++ "\n" ++ l3 ++ "\n" ++ l4 ++ "\n" ++ l5 ++ "\n"

/-- The external world of the stage script: the result of
`new AdmZip(zip).extractAllTo(...)` — the extracted top-level file names, or
the thrown exception's message — and the 7-Zip subprocess's `status`
(`Option Int`: `spawnSync` reports `null` when killed by a signal). -/
structure StageEnv where
  zipEntries : Except String (List String)
  sevenZipStatus : Option Int

/-- `createPythonEnvFromEmbeddableZip(pythonEmbedZipFile)`: extract the zip
(exit 1 on an extraction exception); scan the directory listing for the first
`python(\d+)._pth` file (exit 1 when none is found); on success return the
located file name and the content `writeFileSync` writes into it.
The JS guard `if (!pythonVersion || !pthFileName)` fires exactly when the loop
found no match, since a captured `\d+` run is a non-empty — hence truthy —
string. -/
def createPythonEnvFromEmbeddableZip (env : StageEnv) : ExitOr (String × String) :=
  match env.zipEntries with
  | .error _ => .exit 1
  | .ok files =>
    match findPthFile files with
    | none => .exit 1
    | some (v, name) => .ok (name, pthContent v)

/-- `spawnSync` outcome inspected by the script: the `status` field. -/
structure SpawnResult where
  status : Option Int
deriving DecidableEq

/-- Record of the one compressor invocation: executable, arguments, working
directory, and the files existing at the moment of the call. -/
structure SpawnCall where
  exe : String
  args : List String
  cwd : String
  filesAtCall : List String
deriving DecidableEq

/-- `compressPythonEnvironment()`: remove an existing archive at the target
path, then `spawnSync` 7-Zip (`'a' targetArchive pythonEnvDir/*`, cwd =
`buildDir`); `process.exit(1)` unless `status` is exactly `0` (in JS,
`result.status !== 0` is also true for a `null` status).  On success the
external compressor has created the archive file at the target path. -/
def compressPythonEnvironment (bp : BuildPaths) (res : SpawnResult)
    (files : List String) : ExitOr (List String) × SpawnCall :=
  let targetArchive := bp.pythonEnvArchive
  let files1 :=
    if targetArchive ∈ files then files.filter (fun f => f ≠ targetArchive)
    else files
  let call : SpawnCall :=
    ⟨bp.sevenZipExe, ["a", targetArchive, bp.pythonEnvDir ++ "/*"], bp.buildDir, files1⟩
  if res.status = some 0 then (.ok (targetArchive :: files1), call)
  else (.exit 1, call)

/-- An observable step of the stage phase. -/
inductive StageEvent where
  | reset
  | extracted
  | wrotePthFile (name : String) (content : String)
  | compressed
deriving DecidableEq

/-- Modelled from the spec: the stage-phase driver ("directory reset must
complete before extraction begins, and extraction must complete before the
path-config file is located and rewritten", then packaging) — the source's
`main` was emptied to a few logs, so the strictly sequential sequencing of
the source component functions is taken from the spec.  Returns the phase's
outcome together with the trace of performed steps. -/
def stagePipeline (env : StageEnv) : ExitOr Unit × List StageEvent :=
  let ev0 := [StageEvent.reset]
  match env.zipEntries with
  | .error _ => (.exit 1, ev0)
  | .ok _ =>
    let ev1 := ev0 ++ [StageEvent.extracted]
    match createPythonEnvFromEmbeddableZip env with
    | .exit c => (.exit c, ev1)
    | .ok (name, content) =>
      let ev2 := ev1 ++ [StageEvent.wrotePthFile name content]
      if env.sevenZipStatus = some 0 then (.ok (), ev2 ++ [StageEvent.compressed])
      else (.exit 1, ev2)

/-- An observable action of the stage script's entry point. -/
inductive StageAction where
  | log (msg : String)
  | reset
  | extract
  | rewritePth
  | compress
deriving DecidableEq

/-- `main()` of prepare-python-env.mts: four `console.log` calls and nothing
else (the body ends with "` This stuff doesn't make sense on linux/docker`");
none of `preparePythonEnvDir`, `createPythonEnvFromEmbeddableZip`,
`compressPythonEnvironment` is invoked. -/
def stageMain (bp : BuildPaths) : List StageAction :=
  [.log "🚀 Starting Python environment preparation...",
   .log ("📂 Repository Root: " ++ bp.repoRoot),
   .log ("📂 Target directory: " ++ bp.pythonEnvDir),
   .log " This stuff doesn\x27t make sense on linux/docker"]

/-- `true` exactly on `log` actions of the fetch entry point. -/
def isLogAction : FetchAction → Bool
  | .log _ => true
  | _ => false

/-- `true` exactly on `log` actions of the stage entry point. -/
def isStageLogAction : StageAction → Bool
  | .log _ => true
  | _ => false

/-! ## Concrete instances, used by witnesses and counterexamples -/

/-- A sample directory layout. -/
def demoBuildPaths : BuildPaths :=
  ⟨"r", "b", "res", "env", "arch", "7z"⟩

/-- A network where every URL responds 200 OK and streams to disk correctly. -/
def envAllOk : FetchEnv :=
  ⟨fun _ => .ok ⟨true, 200, "OK", true⟩, fun _ _ => .ok ()⟩

/-- A network where `h/bad` yields HTTP 404 and every other URL succeeds. -/
def envOneNotFound : FetchEnv :=
  ⟨fun u => if u = "h/bad" then .ok ⟨false, 404, "Not Found", true⟩
            else .ok ⟨true, 200, "OK", true⟩,
   fun _ _ => .ok ()⟩

/-- A network where the response is fine but streaming it to disk fails with
an exception whose message is the empty string. -/
def envEmptyStreamError : FetchEnv :=
  ⟨fun _ => .ok ⟨true, 200, "OK", true⟩, fun _ _ => .error ""⟩

/-- A staging file system holding one stale junk file under the staging
directory of `demoBuildPaths`. -/
def demoStageFS : StageFS :=
  ⟨["env"], ["env/junk.txt"]⟩

/-- A stage environment whose extracted archive has no `python*._pth` entry. -/
def stageEnvNoPth : StageEnv :=
  ⟨.ok ["LICENSE.txt"], some 0⟩

/-! ## Helper lemmas -/

theorem splitOnChar_ne_nil (sep : Char) (l : List Char) : splitOnChar sep l ≠ [] := by
  cases l with
  | nil => simp [splitOnChar]
  | cons c cs =>
    cases h : splitOnChar sep cs <;> simp [splitOnChar, h]
    by_cases hc : c = sep <;> simp [hc]

theorem takeWhile_append_right {p : Char → Bool} :
    ∀ xs ys : List Char, (∀ x ∈ xs, p x = true) →
      (xs ++ ys).takeWhile p = xs ++ ys.takeWhile p := by
  intro xs
  induction xs with
  | nil => intro ys _; simp
  | cons x xs ih =>
    intro ys hall
    have hx : p x = true := hall x (by simp)
    simp [List.takeWhile_cons, hx]
    exact ih ys (fun a ha => hall a (by simp [ha]))

theorem takeWhile_append_left {p : Char → Bool} :
    ∀ xs ys : List Char, (∃ x ∈ xs, p x = false) →
      (xs ++ ys).takeWhile p = xs.takeWhile p := by
  intro xs
  induction xs with
  | nil => intro ys h; rcases h with ⟨x, hx, _⟩; cases hx
  | cons x xs ih =>
    intro ys h
    by_cases hx : p x = true
    · simp [List.takeWhile_cons, hx]
      rcases h with ⟨a, ha, hpa⟩
      rcases List.mem_cons.1 ha with rfl | ha'
      · rw [hx] at hpa; cases hpa
      · exact ih ys ⟨a, ha', hpa⟩
    · simp at hx
      simp [List.takeWhile_cons, hx]

theorem takeWhile_eq_self_of_all {p : Char → Bool} (xs : List Char)
    (hall : ∀ x ∈ xs, p x = true) : xs.takeWhile p = xs :=
  List.takeWhile_eq_self_iff.2 hall

theorem splitOnChar_singleton_iff (sep : Char) :
    ∀ cs : List Char, (∃ s, splitOnChar sep cs = [s]) ↔ sep ∉ cs := by
  intro cs
  induction cs with
  | nil => simp [splitOnChar]
  | cons c cs ih =>
    cases h : splitOnChar sep cs with
    | nil => exact absurd h (splitOnChar_ne_nil sep cs)
    | cons s ss =>
      by_cases hc : c = sep
      · subst hc
        simp [splitOnChar, h]
      · have heq : splitOnChar sep (c :: cs) = (c :: s) :: ss := by
          simp [splitOnChar, h, hc]
        rw [heq]
        constructor
        · rintro ⟨x, hx⟩
          have hss : ss = [] := by
            cases ss with
            | nil => rfl
            | cons t ts => simp at hx
          subst hss
          have hcs : sep ∉ cs := ih.1 ⟨s, h⟩
          intro hmem
          rcases List.mem_cons.1 hmem with h1 | h1
          · exact hc h1.symm
          · exact hcs h1
        · intro hmem
          have hcs : sep ∉ cs := fun hm => hmem (List.mem_cons_of_mem _ hm)
          rcases ih.2 hcs with ⟨s', hs'⟩
          rw [h] at hs'
          injection hs' with h1 h2
          subst h2
          exact ⟨c :: s, rfl⟩

theorem splitOnChar_getLast (sep : Char) :
    ∀ l : List Char,
      (splitOnChar sep l).getLast? =
        some ((l.reverse.takeWhile (fun c => c ≠ sep)).reverse) := by
  intro l
  induction l with
  | nil => simp [splitOnChar]
  | cons c cs ih =>
    cases h : splitOnChar sep cs with
    | nil => exact absurd h (splitOnChar_ne_nil sep cs)
    | cons s ss =>
      rw [h] at ih
      by_cases hc : c = sep
      · subst hc
        have heq : splitOnChar c (c :: cs) = [] :: s :: ss := by
          simp [splitOnChar, h]
        have hstep : ((c :: cs).reverse).takeWhile (fun x => decide (x ≠ c)) =
            (cs.reverse).takeWhile (fun x => decide (x ≠ c)) := by
          rw [List.reverse_cons]
          by_cases hcin : c ∈ cs
          · exact takeWhile_append_left _ _ ⟨c, List.mem_reverse.2 hcin, by simp⟩
          · have hall : ∀ x ∈ cs.reverse, (fun x => decide (x ≠ c)) x = true := by
              intro x hx
              simp only [decide_eq_true_eq]
              intro hxx
              subst hxx
              exact hcin (List.mem_reverse.1 hx)
            rw [takeWhile_append_right _ _ hall, takeWhile_eq_self_of_all _ hall]
            simp
        rw [heq, List.getLast?_cons_cons, ih, hstep]
      · have heq : splitOnChar sep (c :: cs) = (c :: s) :: ss := by
          simp [splitOnChar, h, hc]
        rw [heq]
        cases ss with
        | nil =>
          have hcs : sep ∉ cs := (splitOnChar_singleton_iff sep cs).1 ⟨s, h⟩
          have hall : ∀ x ∈ cs.reverse, (fun x => decide (x ≠ sep)) x = true := by
            intro x hx
            simp only [decide_eq_true_eq]
            intro hxx
            subst hxx
            exact hcs (List.mem_reverse.1 hx)
          have hs : s = cs := by
            rw [takeWhile_eq_self_of_all _ hall, List.reverse_reverse] at ih
            simpa using ih
          have hstep : ((c :: cs).reverse).takeWhile (fun x => decide (x ≠ sep)) =
              cs.reverse ++ [c] := by
            rw [List.reverse_cons, takeWhile_append_right _ _ hall]
            simp [hc]
          rw [hstep, hs]
          simp
        | cons t ts =>
          have hmem : sep ∈ cs := by
            by_contra hmemn
            rcases (splitOnChar_singleton_iff sep cs).2 hmemn with ⟨s', hs'⟩
            rw [h] at hs'
            injection hs' with h1 h2
            simp at h2
          have hstep : ((c :: cs).reverse).takeWhile (fun x => decide (x ≠ sep)) =
              (cs.reverse).takeWhile (fun x => decide (x ≠ sep)) := by
            rw [List.reverse_cons]
            exact takeWhile_append_left _ _ ⟨sep, List.mem_reverse.2 hmem, by simp⟩
          calc ((c :: s) :: t :: ts).getLast? = (s :: t :: ts).getLast? := by
                rw [List.getLast?_cons_cons, List.getLast?_cons_cons]
              _ = some (((cs.reverse).takeWhile (fun x => decide (x ≠ sep))).reverse) := ih
              _ = some ((((c :: cs).reverse).takeWhile (fun x => decide (x ≠ sep))).reverse) := by
                rw [hstep]

theorem downloadFile_fst_url_filePath (env : FetchEnv) (url targetPath : String)
    (st : FetchState) :
    (downloadFile env url targetPath st).1.url = url ∧
    (downloadFile env url targetPath st).1.filePath = targetPath := by
  unfold downloadFile
  cases env.fetchResult url with
  | error e => exact ⟨rfl, rfl⟩
  | ok r =>
    by_cases h1 : r.ok = false <;> by_cases h2 : r.hasBody = false <;>
      simp [h1, h2] <;> cases env.streamResult url targetPath <;> simp

theorem downloadFile_fs_mono (env : FetchEnv) (url targetPath : String) (st : FetchState)
    (x : String) (hx : x ∈ st.fs) : x ∈ (downloadFile env url targetPath st).2.fs := by
  unfold downloadFile
  cases env.fetchResult url with
  | error e => exact hx
  | ok r =>
    by_cases h1 : r.ok = false <;> by_cases h2 : r.hasBody = false <;> simp [h1, h2] <;>
      cases env.streamResult url targetPath <;> simp [hx]

theorem downloadFile_success_eq (env : FetchEnv) (url targetPath : String) (st : FetchState)
    (h : (downloadFile env url targetPath st).1.success = true) :
    (downloadFile env url targetPath st).1 =
      { url := url, filePath := targetPath, success := true, error := none } ∧
    targetPath ∈ (downloadFile env url targetPath st).2.fs := by
  unfold downloadFile at h ⊢
  cases hf : env.fetchResult url with
  | error e => rw [hf] at h; cases h
  | ok r =>
    rw [hf] at h
    by_cases h1 : r.ok = false
    · simp [h1] at h
    · by_cases h2 : r.hasBody = false
      · simp [h1, h2] at h
      · simp only [h1, h2] at h ⊢
        cases hs : env.streamResult url targetPath <;> simp [hs] at h ⊢

theorem downloadFile_success_of (env : FetchEnv) (url targetPath : String) (st : FetchState)
    (r : HttpResponse) (hf : env.fetchResult url = .ok r) (hok : r.ok = true)
    (hb : r.hasBody = true) (hs : env.streamResult url targetPath = .ok ()) :
    (downloadFile env url targetPath st).1.success = true := by
  unfold downloadFile
  rw [hf]
  simp [hok, hb, hs]

theorem downloadFileIfNotPresent_cache_hit (bp : BuildPaths) (env : FetchEnv)
    (st : FetchState) (url : String)
    (h : bp.resourcesDir ++ "/" ++ getBaseFileName url ∈ st.fs) :
    downloadFileIfNotPresent bp env st url =
      ({ url := url, filePath := bp.resourcesDir ++ "/" ++ getBaseFileName url,
         success := true, error := none }, st) := by
  unfold downloadFileIfNotPresent
  simp [h]

theorem downloadFileIfNotPresent_fs_mono (bp : BuildPaths) (env : FetchEnv)
    (st : FetchState) (url : String) (x : String) (hx : x ∈ st.fs) :
    x ∈ (downloadFileIfNotPresent bp env st url).2.fs := by
  unfold downloadFileIfNotPresent
  by_cases h : bp.resourcesDir ++ "/" ++ getBaseFileName url ∈ st.fs
  · simp [h, hx]
  · simp only [h, if_neg, if_false]
    exact downloadFile_fs_mono env url _ st x hx

theorem downloadFileIfNotPresent_url (bp : BuildPaths) (env : FetchEnv)
    (st : FetchState) (url : String) :
    (downloadFileIfNotPresent bp env st url).1.url = url := by
  unfold downloadFileIfNotPresent
  by_cases h : bp.resourcesDir ++ "/" ++ getBaseFileName url ∈ st.fs
  · simp [h]
  · simp only [h, if_neg, if_false]
    exact (downloadFile_fst_url_filePath env url _ st).1

theorem downloadFileIfNotPresent_filePath (bp : BuildPaths) (env : FetchEnv)
    (st : FetchState) (url : String) :
    (downloadFileIfNotPresent bp env st url).1.filePath =
      bp.resourcesDir ++ "/" ++ getBaseFileName url := by
  unfold downloadFileIfNotPresent
  by_cases h : bp.resourcesDir ++ "/" ++ getBaseFileName url ∈ st.fs
  · simp [h]
  · simp only [h, if_neg, if_false]
    exact (downloadFile_fst_url_filePath env url _ st).2

theorem downloadFileIfNotPresent_success_shape (bp : BuildPaths) (env : FetchEnv)
    (st : FetchState) (url : String)
    (h : (downloadFileIfNotPresent bp env st url).1.success = true) :
    (downloadFileIfNotPresent bp env st url).1 =
      { url := url, filePath := bp.resourcesDir ++ "/" ++ getBaseFileName url,
        success := true, error := none } ∧
    bp.resourcesDir ++ "/" ++ getBaseFileName url ∈
      (downloadFileIfNotPresent bp env st url).2.fs := by
  unfold downloadFileIfNotPresent at h ⊢
  by_cases hm : bp.resourcesDir ++ "/" ++ getBaseFileName url ∈ st.fs
  · simp [hm]
  · simp only [hm, if_neg, if_false] at h ⊢
    exact downloadFile_success_eq env url _ st h

theorem downloadFileIfNotPresent_success_of (bp : BuildPaths) (env : FetchEnv)
    (st : FetchState) (url : String) (r : HttpResponse)
    (hf : env.fetchResult url = .ok r) (hok : r.ok = true) (hb : r.hasBody = true)
    (hs : env.streamResult url (bp.resourcesDir ++ "/" ++ getBaseFileName url) = .ok ()) :
    (downloadFileIfNotPresent bp env st url).1.success = true := by
  unfold downloadFileIfNotPresent
  by_cases hm : bp.resourcesDir ++ "/" ++ getBaseFileName url ∈ st.fs
  · simp [hm]
  · simp only [hm, if_neg, if_false]
    exact downloadFile_success_of env url _ st r hf hok hb hs

theorem fetchAllResources_fs_mono (bp : BuildPaths) (env : FetchEnv) :
    ∀ (urls : List String) (st : FetchState) (x : String), x ∈ st.fs →
      x ∈ (fetchAllResources bp env urls st).2.fs := by
  intro urls
  induction urls with
  | nil => intro st x hx; exact hx
  | cons u us ih =>
    intro st x hx
    simp only [fetchAllResources]
    exact ih _ x (downloadFileIfNotPresent_fs_mono bp env st u x hx)

theorem fetchAllResources_success_analysis (bp : BuildPaths) (env : FetchEnv) :
    ∀ (urls : List String) (st : FetchState),
      (∀ r ∈ (fetchAllResources bp env urls st).1, r.success = true) →
      (∀ u ∈ urls,
         bp.resourcesDir ++ "/" ++ getBaseFileName u ∈
           (fetchAllResources bp env urls st).2.fs) ∧
      (fetchAllResources bp env urls st).1 =
        urls.map (fun u =>
          { url := u, filePath := bp.resourcesDir ++ "/" ++ getBaseFileName u,
            success := true, error := none }) := by
  intro urls
  induction urls with
  | nil => intro st _; exact ⟨by simp, rfl⟩
  | cons u us ih =>
    intro st hsucc
    simp only [fetchAllResources] at hsucc ⊢
    have hr0 : (downloadFileIfNotPresent bp env st u).1.success = true :=
      hsucc _ (List.mem_cons_self _ _)
    have hshape := downloadFileIfNotPresent_success_shape bp env st u hr0
    have hrest := ih (downloadFileIfNotPresent bp env st u).2
      (fun r hr => hsucc r (List.mem_cons_of_mem _ hr))
    constructor
    · intro v hv
      rcases List.mem_cons.1 hv with rfl | hv'
      · exact fetchAllResources_fs_mono bp env us _ _ hshape.2
      · exact hrest.1 v hv'
    · rw [List.map_cons, hshape.1, hrest.2]

theorem fetchAllResources_all_present (bp : BuildPaths) (env : FetchEnv) :
    ∀ (urls : List String) (st : FetchState),
      (∀ u ∈ urls, bp.resourcesDir ++ "/" ++ getBaseFileName u ∈ st.fs) →
      fetchAllResources bp env urls st =
        (urls.map (fun u =>
          { url := u, filePath := bp.resourcesDir ++ "/" ++ getBaseFileName u,
            success := true, error := none }), st) := by
  intro urls
  induction urls with
  | nil => intro st _; rfl
  | cons u us ih =>
    intro st hall
    have h1 := downloadFileIfNotPresent_cache_hit bp env st u (hall u (by simp))
    simp only [fetchAllResources, h1, List.map_cons]
    rw [ih st (fun v hv => hall v (by simp [hv]))]

/-! ## Claim theorems -/

/-- C8: for every artifact URL, the local destination filename computed by the
fetch script is exactly the final path segment of the URL (the substring after
the last `/`), and the destination path used by `downloadFileIfNotPresent` is
that filename under the resources directory. -/
theorem c8_destination_is_final_path_segment :
    ∀ (url : String) (bp : BuildPaths) (env : FetchEnv) (st : FetchState),
      getBaseFileName url = finalPathSegment url ∧
      (downloadFileIfNotPresent bp env st url).1.filePath =
        bp.resourcesDir ++ "/" ++ finalPathSegment url := by
  intro url bp env st
  have hbase : getBaseFileName url = finalPathSegment url := by
    show String.mk (((splitOnChar '/' url.data).getLast?).getD []) =
      String.mk ((url.data.reverse.takeWhile (fun c => c ≠ '/')).reverse)
    rw [splitOnChar_getLast]
    rfl
  exact ⟨hbase, by rw [downloadFileIfNotPresent_filePath, hbase]⟩

/-- C1: an acquisition whose destination file already exists returns a success
outcome immediately with the state unchanged (in particular no network request
is recorded); consequently, re-running batch acquisition after a fully
successful run changes nothing: it returns the same success outcomes and the
identical state (zero new network transfers). -/
theorem c1_cache_hit_and_idempotence :
    (∀ (bp : BuildPaths) (env : FetchEnv) (st : FetchState) (url : String),
        bp.resourcesDir ++ "/" ++ getBaseFileName url ∈ st.fs →
        downloadFileIfNotPresent bp env st url =
          ({ url := url, filePath := bp.resourcesDir ++ "/" ++ getBaseFileName url,
             success := true, error := none }, st)) ∧
    (∀ (bp : BuildPaths) (env : FetchEnv) (urls : List String) (st : FetchState),
        (∀ r ∈ (fetchAllResources bp env urls st).1, r.success = true) →
        fetchAllResources bp env urls (fetchAllResources bp env urls st).2 =
          ((fetchAllResources bp env urls st).1,
           (fetchAllResources bp env urls st).2)) := by
  constructor
  · intro bp env st url h
    exact downloadFileIfNotPresent_cache_hit bp env st url h
  · intro bp env urls st hsucc
    have h := fetchAllResources_success_analysis bp env urls st hsucc
    rw [fetchAllResources_all_present bp env urls _ h.1, h.2]

/-- Witness for C1 at a concrete layout, network and URL set. -/
theorem c1_cache_hit_and_idempotence_witness :
    downloadFileIfNotPresent demoBuildPaths envAllOk ⟨["res/a"], []⟩ "h/a" =
      ({ url := "h/a",
         filePath := demoBuildPaths.resourcesDir ++ "/" ++ getBaseFileName "h/a",
         success := true, error := none }, ⟨["res/a"], []⟩) ∧
    fetchAllResources demoBuildPaths envAllOk ["h/a", "h/b"]
        (fetchAllResources demoBuildPaths envAllOk ["h/a", "h/b"] ⟨[], []⟩).2 =
      ((fetchAllResources demoBuildPaths envAllOk ["h/a", "h/b"] ⟨[], []⟩).1,
       (fetchAllResources demoBuildPaths envAllOk ["h/a", "h/b"] ⟨[], []⟩).2) :=
  ⟨c1_cache_hit_and_idempotence.1 demoBuildPaths envAllOk ⟨["res/a"], []⟩ "h/a"
      (by decide),
   c1_cache_hit_and_idempotence.2 demoBuildPaths envAllOk ["h/a", "h/b"] ⟨[], []⟩
      (by decide)⟩

/-- C6: a URL whose HTTP request returns a non-success status yields, from
`downloadFile`, an outcome with `success = false` and an error message derived
from the HTTP status; the outcome of `downloadFile` is a function of that
URL's own request only (not of the state or of other URLs' entries in the
environment); the batch never short-circuits (one outcome per URL); and every
URL whose own request is valid succeeds in the batch regardless of other
URLs' failures. -/
theorem c6_http_failure_reported_and_isolated :
    (∀ (env : FetchEnv) (url targetPath : String) (st : FetchState) (r : HttpResponse),
        env.fetchResult url = .ok r → r.ok = false →
        (downloadFile env url targetPath st).1.success = false ∧
        (downloadFile env url targetPath st).1.error =
          some ("HTTP " ++ toString r.status ++ ": " ++ r.statusText)) ∧
    (∀ (env env' : FetchEnv) (url targetPath : String) (st st' : FetchState),
        env.fetchResult url = env'.fetchResult url →
        env.streamResult url targetPath = env'.streamResult url targetPath →
        (downloadFile env url targetPath st).1 = (downloadFile env' url targetPath st').1) ∧
    (∀ (bp : BuildPaths) (env : FetchEnv) (urls : List String) (st : FetchState),
        (fetchAllResources bp env urls st).1.length = urls.length) ∧
    (∀ (bp : BuildPaths) (env : FetchEnv) (urls : List String) (st : FetchState)
        (u : String) (r : HttpResponse),
        env.fetchResult u = .ok r → r.ok = true → r.hasBody = true →
        env.streamResult u (bp.resourcesDir ++ "/" ++ getBaseFileName u) = .ok () →
        ∀ x ∈ (fetchAllResources bp env urls st).1, x.url = u → x.success = true) := by
  refine ⟨?_, ?_, ?_, ?_⟩
  · intro env url targetPath st r hf hok
    unfold downloadFile
    rw [hf]
    simp [hok, httpStatusMessage]
  · intro env env' url targetPath st st' h1 h2
    unfold downloadFile
    rw [← h1, ← h2]
    cases env.fetchResult url with
    | error e => rfl
    | ok r =>
      by_cases hok : r.ok = false <;> by_cases hb : r.hasBody = false <;>
        simp [hok, hb] <;> cases env.streamResult url targetPath <;> rfl
  · intro bp env urls st
    induction urls generalizing st with
    | nil => rfl
    | cons u us ih => simp only [fetchAllResources, List.length_cons, ih]
  · intro bp env urls st u r hf hok hb hs
    induction urls generalizing st with
    | nil => intro x hx; simp [fetchAllResources] at hx
    | cons v us ih =>
      intro x hx hxu
      simp only [fetchAllResources, List.mem_cons] at hx
      rcases hx with rfl | hx'
      · have hv : v = u := by
          rw [← hxu, downloadFileIfNotPresent_url]
        subst hv
        exact downloadFileIfNotPresent_success_of bp env st v r hf hok hb hs
      · exact ih _ x hx' hxu

/-- Witness for C6: a 404 URL is reported as failed with the status-derived
message, the batch still yields one outcome per URL, and the sibling URL with
a valid request succeeds. -/
theorem c6_http_failure_reported_and_isolated_witness :
    ((downloadFile envOneNotFound "h/bad" "res/bad" ⟨[], []⟩).1.success = false ∧
     (downloadFile envOneNotFound "h/bad" "res/bad" ⟨[], []⟩).1.error =
       some ("HTTP " ++ toString (404 : Nat) ++ ": " ++ "Not Found")) ∧
    (fetchAllResources demoBuildPaths envOneNotFound ["h/bad", "h/good"]
        ⟨[], []⟩).1.length = ["h/bad", "h/good"].length ∧
    ({ url := "h/good", filePath := "res/good", success := true,
       error := none } : DownloadResult).success = true :=
  ⟨c6_http_failure_reported_and_isolated.1 envOneNotFound "h/bad" "res/bad" ⟨[], []⟩
      ⟨false, 404, "Not Found", true⟩ rfl rfl,
   c6_http_failure_reported_and_isolated.2.2.1 demoBuildPaths envOneNotFound
      ["h/bad", "h/good"] ⟨[], []⟩,
   c6_http_failure_reported_and_isolated.2.2.2 demoBuildPaths envOneNotFound
      ["h/bad", "h/good"] ⟨[], []⟩ "h/good" ⟨true, 200, "OK", true⟩
      rfl rfl rfl rfl
      { url := "h/good", filePath := "res/good", success := true, error := none }
      (by decide) rfl⟩

theorem httpStatusMessage_ne_empty (r : HttpResponse) :
    "HTTP " ++ toString r.status ++ ": " ++ r.statusText ≠ "" := by
  intro h
  have hlen := congrArg String.length h
  have h5 : ("HTTP " : String).length = 5 := rfl
  have h2 : (": " : String).length = 2 := rfl
  have h0 : ("" : String).length = 0 := rfl
  rw [String.length_append, String.length_append, String.length_append,
    h5, h2, h0] at hlen
  omega

/-- C10 (amended): `downloadFile` is total over its failure modes and never
rethrows; its result's `url` and `filePath` fields equal the inputs; `success`
is `true` exactly when the response arrived, was ok, had a body and streamed
fully; every failure carries an error message; the messages of the failures
the function detects itself (non-ok status, null body) are fixed non-empty
strings, while fetch/stream exceptions have their messages propagated
verbatim. -/
theorem c10_downloadFile_total_result_characterization :
    ∀ (env : FetchEnv) (url targetPath : String) (st : FetchState),
      (downloadFile env url targetPath st).1.url = url ∧
      (downloadFile env url targetPath st).1.filePath = targetPath ∧
      ((downloadFile env url targetPath st).1.success = true ↔
        (∃ r, env.fetchResult url = .ok r ∧ r.ok = true ∧ r.hasBody = true) ∧
          env.streamResult url targetPath = .ok ()) ∧
      ((downloadFile env url targetPath st).1.success = false →
        ((downloadFile env url targetPath st).1.error).isSome = true) ∧
      (∀ r, env.fetchResult url = .ok r → r.ok = false →
        (downloadFile env url targetPath st).1.error =
          some ("HTTP " ++ toString r.status ++ ": " ++ r.statusText) ∧
        ("HTTP " ++ toString r.status ++ ": " ++ r.statusText) ≠ "") ∧
      (∀ r, env.fetchResult url = .ok r → r.ok = true → r.hasBody = false →
        (downloadFile env url targetPath st).1.error = some "Response body is null") ∧
      (∀ e, env.fetchResult url = .error e →
        (downloadFile env url targetPath st).1.error = some e) ∧
      (∀ r e, env.fetchResult url = .ok r → r.ok = true → r.hasBody = true →
        env.streamResult url targetPath = .error e →
        (downloadFile env url targetPath st).1.error = some e) := by
  intro env url targetPath st
  refine ⟨(downloadFile_fst_url_filePath env url targetPath st).1,
          (downloadFile_fst_url_filePath env url targetPath st).2,
          ?_, ?_, ?_, ?_, ?_, ?_⟩
  · unfold downloadFile
    cases hf : env.fetchResult url with
    | error e => simp [hf]
    | ok r =>
      by_cases hok : r.ok = false
      · simp [hf, hok]
      · by_cases hb : r.hasBody = false
        · simp [hf, hok, hb]
        · simp only [hf, hok, hb, if_false]
          cases hs : env.streamResult url targetPath with
          | error e =>
            simp [hs]
          | ok u =>
            simp [hs, hf]
            exact ⟨by simpa using hok, by simpa using hb⟩
  · unfold downloadFile
    cases hf : env.fetchResult url with
    | error e => simp
    | ok r =>
      by_cases hok : r.ok = false <;> by_cases hb : r.hasBody = false <;>
        simp [hok, hb] <;> cases hs : env.streamResult url targetPath <;> simp
  · intro r hf hok
    unfold downloadFile
    rw [hf]
    simp [hok, httpStatusMessage]
    exact httpStatusMessage_ne_empty r
  · intro r hf hok hb
    unfold downloadFile
    rw [hf]
    simp [hok, hb]
  · intro e hf
    unfold downloadFile
    rw [hf]
  · intro r e hf hok hb hs
    unfold downloadFile
    rw [hf]
    simp [hok, hb, hs]

/-- Counterexample to C10 as stated: when streaming the body fails with an
exception whose own message is empty, the result has `success = false` and an
error description that is the EMPTY string — so the "non-empty error message"
part of the claim does not hold for propagated exception messages. -/
theorem c10_counterexample_empty_error_message :
    (downloadFile envEmptyStreamError "u" "t" ⟨[], []⟩).1.success = false ∧
    (downloadFile envEmptyStreamError "u" "t" ⟨[], []⟩).1.error = some "" := by
  exact ⟨rfl, rfl⟩

/-- Witness for C10 (amended) at a concrete 404 request. -/
theorem c10_downloadFile_total_result_characterization_witness :
    (downloadFile envOneNotFound "h/bad" "res/bad" ⟨[], []⟩).1.url = "h/bad" ∧
    (downloadFile envOneNotFound "h/bad" "res/bad" ⟨[], []⟩).1.filePath = "res/bad" ∧
    (downloadFile envOneNotFound "h/bad" "res/bad" ⟨[], []⟩).1.error =
      some ("HTTP " ++ toString (404 : Nat) ++ ": " ++ "Not Found") ∧
    ("HTTP " ++ toString (404 : Nat) ++ ": " ++ "Not Found") ≠ "" :=
  ⟨(c10_downloadFile_total_result_characterization envOneNotFound "h/bad" "res/bad"
      ⟨[], []⟩).1,
   (c10_downloadFile_total_result_characterization envOneNotFound "h/bad" "res/bad"
      ⟨[], []⟩).2.1,
   ((c10_downloadFile_total_result_characterization envOneNotFound "h/bad" "res/bad"
      ⟨[], []⟩).2.2.2.2.1 ⟨false, 404, "Not Found", true⟩ rfl rfl).1,
   ((c10_downloadFile_total_result_characterization envOneNotFound "h/bad" "res/bad"
      ⟨[], []⟩).2.2.2.2.1 ⟨false, 404, "Not Found", true⟩ rfl rfl).2⟩

/-- Counterexample to C2 as stated: both entry points are inert.  Running the
fetch entry point on an empty file system creates no file at the destination
of a configured URL, and the stage entry point performs none of the four
pipeline steps (no reset, no extraction, no rewrite, no compression). -/
theorem c2_counterexample_entry_points_inert :
    runFetchActions [] (fetchMain demoBuildPaths) = [] ∧
    (demoBuildPaths.resourcesDir ++ "/" ++ getBaseFileName "h/python-embed.zip") ∉
      runFetchActions [] (fetchMain demoBuildPaths) ∧
    StageAction.reset ∉ stageMain demoBuildPaths ∧
    StageAction.extract ∉ stageMain demoBuildPaths ∧
    StageAction.rewritePth ∉ stageMain demoBuildPaths ∧
    StageAction.compress ∉ stageMain demoBuildPaths := by
  refine ⟨by decide, by decide, by decide, by decide, by decide, by decide⟩

/-- C2 (amended): the component functions of both phases exist in the scripts,
but the two entry points are inert: each emits only log actions, so the fetch
entry point leaves every file system unchanged and the stage entry point
performs neither reset, extraction, path-config rewrite nor compression. -/
theorem c2_amended_entry_points_only_log :
    ∀ (bp : BuildPaths) (fs : List String),
      runFetchActions fs (fetchMain bp) = fs ∧
      (fetchMain bp).all isLogAction = true ∧
      (stageMain bp).all isStageLogAction = true := by
  intro bp fs
  exact ⟨rfl, rfl, rfl⟩

/-- C3: the rewritten path-config content is exactly five newline-separated
(newline-terminated) lines — the detected version's standard-library archive
name `python<V>.zip`, a line containing only `.`, a blank line, a comment
line, and `import site`; for a staged listing containing the digit-312 file,
the detected token is `312`, the rewrite targets that file, and the first
line of the rewritten content is `python312.zip`. -/
theorem c3_pth_content_five_lines_and_version_312 :
    (∀ v : String, pthContent v =
      fiveLines ("python" ++ v ++ ".zip") "." ""
        "# Uncomment to run site.main() automatically" "import site") ∧
    findPthFile ["python.exe", "python312.dll", "python312._pth", "LICENSE.txt"] =
      some ("312", "python312._pth") ∧
    createPythonEnvFromEmbeddableZip
        ⟨.ok ["python.exe", "python312.dll", "python312._pth", "LICENSE.txt"], some 0⟩ =
      .ok ("python312._pth", pthContent "312") ∧
    (splitOnChar (Char.ofNat 10) (pthContent "312").data).map (fun l => String.mk l) =
      ["python312.zip", ".", "", "# Uncomment to run site.main() automatically",
       "import site", ""] := by
  refine ⟨?_, by decide, by decide, by decide⟩
  intro v
  have htail :
      (".zip\n.\n\n# Uncomment to run site.main() automatically\nimport site\n" : String) =
        ".zip" ++ "\n" ++ "." ++ "\n" ++ "" ++ "\n" ++
          "# Uncomment to run site.main() automatically" ++ "\n" ++ "import site" ++ "\n" := by
    decide
  unfold pthContent fiveLines
  rw [htail]
  simp [String.append_assoc]

/-- C4: after the staging-directory reset, the staging directory exists and is
empty — every file that lay under it beforehand (including arbitrary files
unrelated to the runtime) is gone.  The hypothesis is filesystem
well-formedness: a file under the staging directory can only exist when the
staging directory itself exists. -/
theorem c4_staging_reset_destructive :
    ∀ (bp : BuildPaths) (fs : StageFS),
      (∀ f ∈ fs.files, underDir bp.pythonEnvDir f = true → bp.pythonEnvDir ∈ fs.dirs) →
      bp.pythonEnvDir ∈ (preparePythonEnvDir bp fs).dirs ∧
      ∀ f, underDir bp.pythonEnvDir f = true → f ∉ (preparePythonEnvDir bp fs).files := by
  intro bp fs hwf
  by_cases hd : bp.pythonEnvDir ∈ fs.dirs
  · refine ⟨by simp [preparePythonEnvDir, hd], ?_⟩
    intro f hu hmem
    simp [preparePythonEnvDir, hd, List.mem_filter] at hmem
    exact absurd hu (by simp [hmem.2])
  · refine ⟨by simp [preparePythonEnvDir, hd], ?_⟩
    intro f hu hmem
    simp [preparePythonEnvDir, hd] at hmem
    exact hd (hwf f hmem hu)

/-- Witness for C4: a junk file under the staging directory is gone after the
reset, while the staging directory itself exists. -/
theorem c4_staging_reset_destructive_witness :
    demoBuildPaths.pythonEnvDir ∈ (preparePythonEnvDir demoBuildPaths demoStageFS).dirs ∧
    "env/junk.txt" ∉ (preparePythonEnvDir demoBuildPaths demoStageFS).files :=
  ⟨(c4_staging_reset_destructive demoBuildPaths demoStageFS (by decide)).1,
   (c4_staging_reset_destructive demoBuildPaths demoStageFS (by decide)).2
     "env/junk.txt" (by decide)⟩

theorem findPthFile_eq_none (files : List String)
    (h : ∀ f ∈ files, matchPth f = none) : findPthFile files = none := by
  induction files with
  | nil => rfl
  | cons f rest ih =>
    have hf : matchPth f = none := h f (by simp)
    simp only [findPthFile, hf]
    exact ih (fun g hg => h g (by simp [hg]))

/-- C5: when no top-level entry of the extracted archive matches the
version-bearing `python<digits>._pth` pattern, the stage phase exits with a
non-zero status, and its trace contains no path-config rewrite and no
packaging step. -/
theorem c5_no_pth_fatal_abort :
    ∀ (env : StageEnv) (files : List String),
      env.zipEntries = .ok files →
      (∀ f ∈ files, matchPth f = none) →
      (stagePipeline env).1 = .exit 1 ∧
      (∀ name content, StageEvent.wrotePthFile name content ∉ (stagePipeline env).2) ∧
      StageEvent.compressed ∉ (stagePipeline env).2 := by
  intro env files hz hnone
  have hfind : findPthFile files = none := findPthFile_eq_none files hnone
  have hpipe : stagePipeline env =
      (.exit 1, [StageEvent.reset, StageEvent.extracted]) := by
    simp [stagePipeline, createPythonEnvFromEmbeddableZip, hz, hfind]
  rw [hpipe]
  refine ⟨rfl, ?_, by decide⟩
  intro name content
  simp

/-- Witness for C5 at a concrete extraction with no matching entry. -/
theorem c5_no_pth_fatal_abort_witness :
    (stagePipeline stageEnvNoPth).1 = .exit 1 ∧
    StageEvent.wrotePthFile "python312._pth" (pthContent "312") ∉
      (stagePipeline stageEnvNoPth).2 ∧
    StageEvent.compressed ∉ (stagePipeline stageEnvNoPth).2 :=
  ⟨(c5_no_pth_fatal_abort stageEnvNoPth ["LICENSE.txt"] rfl (by decide)).1,
   (c5_no_pth_fatal_abort stageEnvNoPth ["LICENSE.txt"] rfl (by decide)).2.1
     "python312._pth" (pthContent "312"),
   (c5_no_pth_fatal_abort stageEnvNoPth ["LICENSE.txt"] rfl (by decide)).2.2⟩

/-- C7: the packaging step never passes a pre-existing target archive to the
compressor (the stale archive is removed before the subprocess is invoked),
and a non-zero subprocess exit status makes the packaging step terminate the
process with a non-zero exit. -/
theorem c7_compress_removes_stale_and_fails_on_nonzero :
    ∀ (bp : BuildPaths) (res : SpawnResult) (files : List String),
      bp.pythonEnvArchive ∉ (compressPythonEnvironment bp res files).2.filesAtCall ∧
      (∀ n : Int, res.status = some n → n ≠ 0 →
        (compressPythonEnvironment bp res files).1 = .exit 1) := by
  intro bp res files
  constructor
  · unfold compressPythonEnvironment
    by_cases hm : bp.pythonEnvArchive ∈ files <;>
      by_cases hst : res.status = some 0 <;> simp [hm, hst]
  · intro n hn hnz
    unfold compressPythonEnvironment
    rw [hn]
    simp [hnz]

/-- Witness for C7: a stale archive is absent from the compressor's view of
the file system, and exit status 2 aborts. -/
theorem c7_compress_removes_stale_and_fails_on_nonzero_witness :
    demoBuildPaths.pythonEnvArchive ∉
      (compressPythonEnvironment demoBuildPaths ⟨some 2⟩
        ["arch", "env/python.exe"]).2.filesAtCall ∧
    (compressPythonEnvironment demoBuildPaths ⟨some 2⟩ ["arch", "env/python.exe"]).1 =
      .exit 1 :=
  ⟨(c7_compress_removes_stale_and_fails_on_nonzero demoBuildPaths ⟨some 2⟩
      ["arch", "env/python.exe"]).1,
   (c7_compress_removes_stale_and_fails_on_nonzero demoBuildPaths ⟨some 2⟩
      ["arch", "env/python.exe"]).2 2 rfl (by decide)⟩

/-- C9: when several top-level entries match the version pattern, the first in
directory-listing order wins: the version token and the rewrite target come
from that first match only. -/
theorem c9_first_match_in_listing_order_wins :
    ∀ (l1 l2 : List String) (m v : String),
      (∀ f ∈ l1, matchPth f = none) → matchPth m = some v →
      findPthFile (l1 ++ m :: l2) = some (v, m) := by
  intro l1
  induction l1 with
  | nil =>
    intro l2 m v _ hm
    simp [findPthFile, hm]
  | cons f rest ih =>
    intro l2 m v hnone hm
    have hf : matchPth f = none := hnone f (by simp)
    simp only [List.cons_append, findPthFile, hf]
    exact ih l2 m v (fun g hg => hnone g (by simp [hg])) hm

/-- Witness for C9: with both `python312._pth` and `python313._pth` present,
the first match `python312._pth` determines version and target. -/
theorem c9_first_match_in_listing_order_wins_witness :
    findPthFile (["python.exe"] ++ "python312._pth" :: ["python313._pth"]) =
      some ("312", "python312._pth") :=
  c9_first_match_in_listing_order_wins ["python.exe"] ["python313._pth"]
    "python312._pth" "312" (by decide) (by decide)

end AIPlayground
